import Mathlib

/-!
Shallow embedding of the rss-pipe flow engine and WebSub endpoints,
with theorems checking the natural-language specification against it.

Sources embedded: `src/route/websub.rs` (signature parsing and
verification, the `receive` push handler, the `verify` subscription
handler), `src/route/api/mod.rs` (`get_flow`), `src/flow/mod.rs`
(`Flow::run`), `src/flow/retrieve.rs` (`Retrieve::run`, `get_content`).
Parts of the crate that the checked-in tree does not contain (the `IO`
slot type, `Node::is_dirty`, the cache node, `internal_error`) are
modelled from the specification and marked as such.
-/

namespace RssPipe

/-- Byte strings (Rust `&[u8]` / `Vec<u8>`) as lists of naturals. -/
abbrev Bytes := List Nat

/-- The HMAC algorithms named by `XHubSignature::verify`
(`src/route/websub.rs:208-223`): `sha1` (behind a cargo feature),
`sha256`, `sha384`, `sha512`. -/
inductive Algo
| sha1
| sha256
| sha384
| sha512
deriving DecidableEq

/-- The algorithm name as it appears in the `X-Hub-Signature` header. -/
def algoName : Algo → String
| .sha1 => "sha1"
| .sha256 => "sha256"
| .sha384 => "sha384"
| .sha512 => "sha512"

/-- Whether an algorithm is compiled in: `sha1` only under
`#[cfg(feature = "sha1")]`, the SHA-2 family always. -/
def algoEnabled (sha1Feature : Bool) : Algo → Bool
| .sha1 => sha1Feature
| _ => true

/-- An HMAC implementation family: for each algorithm, the tag computed
from a secret and a message.  The concrete compression functions live in
the `hmac`/`sha2` crates, outside the repository, so the embedding is
parametric in this family. -/
def HmacFamily := Algo → Bytes → Bytes → Bytes

/-- `verify_hmac` (`src/route/websub.rs:254-269`): build the keyed MAC
with `Hmac::new_from_slice(secret)` — which for HMAC accepts keys of
every length and never fails — feed it `message`, and compare the
computed tag with `signature` (`verify_slice(..).is_ok()`). -/
def verify_hmac (tag : Bytes → Bytes → Bytes) (signature secret message : Bytes) :
    Except String Bool :=
  .ok (decide (tag secret message = signature))

/-- `struct XHubSignature` (`src/route/websub.rs:199-203`): the parsed
`X-Hub-Signature` header, an algorithm name and a decoded signature. -/
structure XHubSignature where
  method : String
  signature : Bytes
deriving DecidableEq

/-- Value of one hexadecimal digit, as in the `hex` crate. -/
def hexVal (c : Char) : Option Nat :=
  if '0' ≤ c ∧ c ≤ '9' then some (c.toNat - '0'.toNat)
  else if 'a' ≤ c ∧ c ≤ 'f' then some (c.toNat - 'a'.toNat + 10)
  else if 'A' ≤ c ∧ c ≤ 'F' then some (c.toNat - 'A'.toNat + 10)
  else none

/-- `hex::decode`: an even-length hex string decodes to bytes, anything
else is an error. -/
def hexDecode : List Char → Option Bytes
| [] => some []
| hi :: lo :: rest =>
  match hexVal hi, hexVal lo, hexDecode rest with
  | some h, some l, some bs => some ((16 * h + l) :: bs)
  | _, _, _ => none
| [_] => none

/-- `str::split_once('=')`: the text before the first `=` and the text
after it, or `none` when no `=` occurs. -/
def splitOnceEq : List Char → Option (List Char × List Char)
| [] => none
| c :: rest =>
  if c = '=' then some ([], rest)
  else
    match splitOnceEq rest with
    | none => none
    | some (l, r) => some (c :: l, r)

/-- `FromStr for XHubSignature` (`src/route/websub.rs:227-240`):
`split_once('=')` into method and hex signature, then `hex::decode`. -/
def XHubSignature.fromStr (s : String) : Except String XHubSignature :=
  match splitOnceEq s.data with
  | none => .error ""
  | some (m, sigHex) =>
    match hexDecode sigHex with
    | none => .error "invalid hex"
    | some sig => .ok { method := ⟨m⟩, signature := sig }

/-- `XHubSignature::verify` (`src/route/websub.rs:206-224`): dispatch on
the method string; `sha1` only when its feature is enabled, otherwise
log and return `false`; unknown algorithms log and return `false`. -/
def XHubSignature.verify (sha1Feature : Bool) (hmac : HmacFamily)
    (x : XHubSignature) (secret message : Bytes) : Except String Bool :=
  match x.method with
  | "sha1" =>
    if sha1Feature then verify_hmac (hmac .sha1) x.signature secret message
    else .ok false
  | "sha256" => verify_hmac (hmac .sha256) x.signature secret message
  | "sha384" => verify_hmac (hmac .sha384) x.signature secret message
  | "sha512" => verify_hmac (hmac .sha512) x.signature secret message
  | _ => .ok false

/-- The row `SELECT flow, secret FROM websub WHERE uuid = ?` read by
`receive` (`src/route/websub.rs:36-44`).  `secret` is stored as TEXT and
passed to verification as `secret.as_bytes()`; it is kept here already
in byte form. -/
structure SubRow where
  flow : String
  secret : Bytes

/-- Modelled from the spec: the flow object as `receive` uses it.
`Flow::inputs` and the `IO` slot lookup (`inputs().find(kind ==
WebSub)`) are not in the checked-in tree, so the flow side of the push
pipeline is abstracted: a predicate for having a `WebSub`-kind input
slot, `accept` for delivering the body into that slot, and `run` for
`flow.run()`. -/
structure FlowIface (F : Type) where
  hasWebSubInput : F → Bool
  accept : F → Bytes → Except String F
  run : F → Except String F

/-- Observable outcome of one `receive` call: the HTTP response
(`Ok(status)` or `Err((status, message))`), whether the
verification-error branch at `src/route/websub.rs:56` was taken,
how many times `input.accept` and `flow.run` were invoked, and the flow
object after the call when one was looked up. -/
structure ReceiveOut (F : Type) where
  response : Except (Nat × String) Nat
  verifyErred : Bool
  accepts : Nat
  runs : Nat
  flowAfter : Option F

/-- `receive` (`src/route/websub.rs:26-99`): look up the subscription
row by UUID (absent → 200); require a parseable `X-Hub-Signature`
header (missing or unparseable → 403); verify the signature (an `Err`
from `verify` → 400, a `false` → 403); on success resolve the flow by
name (absent → 404), and if it has a `WebSub` input slot, `accept` the
body (failure → 400) and `run` the flow (failure → 500); respond 200.
The header value is taken as a `String` (`to_str` failure folds into
the parse-failure 403 arm). -/
def receive (F : Type) (iface : FlowIface F) (sha1Feature : Bool)
    (hmac : HmacFamily) (row? : Option SubRow) (header? : Option String)
    (body : Bytes) (flows : String → Option F) : ReceiveOut F :=
  match row? with
  | none => ⟨.ok 200, false, 0, 0, none⟩
  | some row =>
    match header? with
    | none => ⟨.error (403, "403 Forbidden"), false, 0, 0, none⟩
    | some hs =>
      match XHubSignature.fromStr hs with
      | .error _ => ⟨.error (403, "403 Forbidden"), false, 0, 0, none⟩
      | .ok signature =>
        match signature.verify sha1Feature hmac row.secret body with
        | .error e => ⟨.error (400, e), true, 0, 0, none⟩
        | .ok verified =>
          if verified then
            match flows row.flow with
            | none => ⟨.error (404, "Invalid subscription"), false, 0, 0, none⟩
            | some flow =>
              if iface.hasWebSubInput flow then
                match iface.accept flow body with
                | .error e => ⟨.error (400, e), false, 1, 0, some flow⟩
                | .ok flow1 =>
                  match iface.run flow1 with
                  | .error e => ⟨.error (500, e), false, 1, 1, some flow1⟩
                  | .ok flow2 => ⟨.ok 200, false, 1, 1, some flow2⟩
              else ⟨.ok 200, false, 0, 0, some flow⟩
          else ⟨.error (403, "Invalid signature"), false, 0, 0, none⟩

/-- `XHubSignature::verify` never returns `Err`: every arm either calls
`verify_hmac` (whose only fallible step, `Hmac::new_from_slice`,
accepts keys of every length) or yields a literal `false`. -/
lemma verify_isOk (sha1Feature : Bool) (hmac : HmacFamily)
    (x : XHubSignature) (secret message : Bytes) :
    ∃ b, x.verify sha1Feature hmac secret message = .ok b := by
  unfold XHubSignature.verify
  split <;> first
    | exact ⟨_, rfl⟩
    | · split
        · exact ⟨_, rfl⟩
        · exact ⟨_, rfl⟩

/-- Verification succeeds exactly on the tag an honest signer with an
enabled algorithm computes over the same secret and message. -/
lemma verify_ok_true_iff (sha1Feature : Bool) (hmac : HmacFamily)
    (name : String) (s secret message : Bytes) :
    XHubSignature.verify sha1Feature hmac ⟨name, s⟩ secret message = .ok true ↔
      ∃ a : Algo, algoName a = name ∧ algoEnabled sha1Feature a = true ∧
        s = hmac a secret message := by
  unfold XHubSignature.verify verify_hmac
  constructor
  · intro h
    revert h
    split
    all_goals simp_all
    · rename_i hname
      intro hs
      cases hf : sha1Feature
      · simp [hf] at hs
      · simp [hf] at hs
        exact ⟨.sha1, by simp [algoName, hname], by simp [algoEnabled, hf], hs.symm⟩
    · rename_i hname
      intro hs
      exact ⟨.sha256, by simp [algoName, hname], by simp [algoEnabled], hs.symm⟩
    · rename_i hname
      intro hs
      exact ⟨.sha384, by simp [algoName, hname], by simp [algoEnabled], hs.symm⟩
    · rename_i hname
      intro hs
      exact ⟨.sha512, by simp [algoName, hname], by simp [algoEnabled], hs.symm⟩
  · rintro ⟨a, hname, hen, hs⟩
    cases a <;> simp [algoName] at hname <;> subst hname <;>
      simp_all [algoEnabled, algoName]

/-- The algorithm names are pairwise distinct strings. -/
lemma algoName_injective : ∀ a b : Algo, algoName a = algoName b → a = b := by
  intro a b
  cases a <;> cases b <;> decide

/-- Claim C3: signature verification accepts exactly the signatures a
correct signer with the same secret and a supported algorithm (sha256,
sha384, sha512, and sha1 only when its feature gate is enabled) would
produce over the message; for an unknown or disabled algorithm name,
verification returns false for every secret, message, and signature. -/
theorem C3_verify_accepts_exactly_honest_signatures (sha1Feature : Bool)
    (hmac : HmacFamily) (name : String) (s secret message : Bytes) :
    (XHubSignature.verify sha1Feature hmac ⟨name, s⟩ secret message = .ok true ↔
      ∃ a : Algo, algoName a = name ∧ algoEnabled sha1Feature a = true ∧
        s = hmac a secret message) ∧
    ((∀ a : Algo, ¬(algoName a = name ∧ algoEnabled sha1Feature a = true)) →
      XHubSignature.verify sha1Feature hmac ⟨name, s⟩ secret message = .ok false) := by
  refine ⟨verify_ok_true_iff sha1Feature hmac name s secret message, ?_⟩
  intro hno
  obtain ⟨b, hb⟩ := verify_isOk sha1Feature hmac ⟨name, s⟩ secret message
  cases b
  · exact hb
  · exfalso
    obtain ⟨a, ha1, ha2, _⟩ :=
      (verify_ok_true_iff sha1Feature hmac name s secret message).mp hb
    exact hno a ⟨ha1, ha2⟩

/-- Witness for C3: the unknown algorithm name `md5` fails closed. -/
theorem C3_witness :
    XHubSignature.verify false (fun _ _ _ => [0]) ⟨"md5", [0]⟩ [1] [2] = .ok false :=
  (C3_verify_accepts_exactly_honest_signatures false (fun _ _ _ => [0])
      "md5" [0] [1] [2]).2 (by intro a; cases a <;> decide)

/-- Claim C2: for a POST whose UUID matches a stored subscription, if
the X-Hub-Signature header is present and parses but its signature does
not equal the HMAC of the request body under the stored secret and
named algorithm, the response is 403 Invalid signature and the
subscription flow is not invoked: no slot accept, no flow run. -/
theorem C2_wrong_hmac_rejected_without_flow_invocation (F : Type)
    (iface : FlowIface F) (sha1Feature : Bool) (hmac : HmacFamily)
    (row : SubRow) (hs : String) (sig : XHubSignature) (body : Bytes)
    (flows : String → Option F) (a : Algo)
    (hparse : XHubSignature.fromStr hs = .ok sig)
    (hname : algoName a = sig.method)
    (hen : algoEnabled sha1Feature a = true)
    (hne : hmac a row.secret body ≠ sig.signature) :
    receive F iface sha1Feature hmac (some row) (some hs) body flows =
      ⟨.error (403, "Invalid signature"), false, 0, 0, none⟩ := by
  obtain ⟨b, hb⟩ := verify_isOk sha1Feature hmac sig row.secret body
  have hfalse : b = false := by
    cases b
    · rfl
    · exfalso
      obtain ⟨a2, ha1, _, hs2⟩ :=
        (verify_ok_true_iff sha1Feature hmac sig.method sig.signature
          row.secret body).mp hb
      have : a2 = a := algoName_injective a2 a (by rw [ha1, hname])
      exact hne (by rw [← this, ← hs2])
  subst hfalse
  unfold receive
  dsimp only
  rw [hparse]
  dsimp only
  rw [hb]
  rfl

/-- Witness for C2: a concrete push whose sha256 signature is wrong is
answered 403 with no flow invocation. -/
theorem C2_witness :
    receive Unit ⟨fun _ => true, fun f _ => .ok f, fun f => .ok f⟩ false
        (fun _ _ _ => [0]) (some ⟨"f", [9]⟩) (some "sha256=01") [5]
        (fun _ => none) =
      ⟨.error (403, "Invalid signature"), false, 0, 0, none⟩ :=
  C2_wrong_hmac_rejected_without_flow_invocation Unit
    ⟨fun _ => true, fun f _ => .ok f, fun f => .ok f⟩ false
    (fun _ _ _ => [0]) ⟨"f", [9]⟩ "sha256=01" ⟨"sha256", [1]⟩ [5]
    (fun _ => none) .sha256 rfl rfl rfl (by decide)

/-- Claim C10: for every secret, message, and parsed X-Hub-Signature
value, verification returns Ok and never Err (HMAC key setup accepts
keys of every length; the unknown-algorithm arm returns false), so the
400 branch in receive that maps a verification error is never taken. -/
theorem C10_verify_never_errs_and_bad_request_branch_unreachable :
    (∀ (sha1Feature : Bool) (hmac : HmacFamily) (x : XHubSignature)
        (secret message : Bytes),
      ∃ b, x.verify sha1Feature hmac secret message = .ok b) ∧
    (∀ (F : Type) (iface : FlowIface F) (sha1Feature : Bool)
        (hmac : HmacFamily) (row? : Option SubRow) (header? : Option String)
        (body : Bytes) (flows : String → Option F),
      (receive F iface sha1Feature hmac row? header? body flows).verifyErred
        = false) := by
  refine ⟨verify_isOk, ?_⟩
  intro F iface sha1Feature hmac row? header? body flows
  unfold receive
  cases row? with
  | none => rfl
  | some row =>
    cases header? with
    | none => rfl
    | some hs =>
      cases hp : XHubSignature.fromStr hs with
      | error e => dsimp only; rw [hp]
      | ok sig =>
        obtain ⟨b, hb⟩ := verify_isOk sha1Feature hmac sig row.secret body
        dsimp only
        rw [hp]
        dsimp only
        rw [hb]
        cases b with
        | false => rfl
        | true =>
          dsimp only
          repeat' split
          all_goals rfl

/-- An entry link (`atom_syndication::Link`): relation tag and href, as
used by `get_content` (`src/flow/retrieve.rs:38-43`). -/
structure Link where
  rel : String
  href : String
deriving DecidableEq

/-- Entry content (`atom_syndication::Content`): optional value and
content type, built by `ContentBuilder` at `src/flow/retrieve.rs:48-53`. -/
structure Content where
  value : Option String
  contentType : Option String
deriving DecidableEq

/-- A feed entry: the fields the embedded code touches (title only to
tell entries apart, links, content). -/
structure Entry where
  title : String
  links : List Link
  content : Option Content
deriving DecidableEq

/-- A feed (`atom_syndication::Feed`): the ordered entries. -/
structure Feed where
  entries : List Entry
deriving DecidableEq

/-- Modelled from the spec: `DataKind`, the slot type tag (`Feed` or
`WebSub`); the enum lives in the `flow/node.rs` revision that is not in
the checked-in tree. -/
inductive DataKind
| feed
| websub
deriving DecidableEq

/-- Modelled from the spec: `Data`, the tagged value flowing between
nodes — `Feed(…)` or `WebSub(raw bytes)`. -/
inductive Data
| feed (f : Feed)
| websub (bytes : Bytes)
deriving DecidableEq

/-- The kind tag of a value. -/
def Data.kind : Data → DataKind
| .feed _ => .feed
| .websub _ => .websub

/-- Modelled from the spec: the three observable states of an IO slot —
empty, dirty (unconsumed value), clean (value already consumed). -/
inductive SlotState
| empty
| dirty (v : Data)
| clean (v : Data)
deriving DecidableEq

/-- Modelled from the spec: the `IO` slot, a typed cell shared between
adjacent nodes; its definition is in the missing `flow/node.rs`
revision. -/
structure IOSlot where
  kind : DataKind
  state : SlotState
deriving DecidableEq

/-- Modelled from the spec: `is_dirty()` — true exactly in the dirty
state. -/
def IOSlot.isDirty (io : IOSlot) : Bool :=
  match io.state with
  | .dirty _ => true
  | _ => false

/-- Modelled from the spec: `accept(v)` — empty goes to dirty storing
`v`; dirty and clean reject the double write; a kind mismatch is an
error. -/
def IOSlot.accept (io : IOSlot) (v : Data) : Except String IOSlot :=
  if v.kind = io.kind then
    match io.state with
    | .empty => .ok { io with state := .dirty v }
    | _ => .error "slot already full"
  else .error "kind mismatch"

/-- Modelled from the spec: `get()` — dirty yields its value and
becomes clean, clean yields the cached value, empty yields none. -/
def IOSlot.get (io : IOSlot) : Option Data × IOSlot :=
  match io.state with
  | .empty => (none, io)
  | .dirty v => (some v, { io with state := .clean v })
  | .clean v => (some v, io)

/-- Modelled from the spec: `clear()` — any state goes to empty. -/
def IOSlot.clear (io : IOSlot) : IOSlot :=
  { io with state := .empty }

/-- The core computation of a non-source node: its result from the
value taken off the input slot (e.g. the body of `Retrieve::run`). -/
abbrev Transform := Data → Except String Data

/-- One non-source node `run()`, following the pattern of
`Retrieve::run` (`src/flow/retrieve.rs:77-92`): `get` the input slot,
apply the node computation, `accept` the result on the output slot. -/
def runTransform (f : Transform) (input output : IOSlot) :
    Except String (IOSlot × IOSlot) :=
  match input.get with
  | (none, _) => .error "no input"
  | (some v, input1) =>
    match f v with
    | .error e => .error e
    | .ok w =>
      match output.accept w with
      | .error e => .error e
      | .ok output1 => .ok (input1, output1)

/-- One iteration of the `Flow::run` loop (`src/flow/mod.rs:35-44`) for
a non-source node: if the node is dirty (spec: any input slot dirty),
run it, then `clear()` each of its input slots that is still dirty. -/
def stepNode (f : Transform) (input output : IOSlot) :
    Except String (IOSlot × IOSlot) :=
  if input.isDirty then
    match runTransform f input output with
    | .error e => .error e
    | .ok (input1, output1) =>
      .ok (if input1.isDirty then input1.clear else input1, output1)
  else .ok (input, output)

/-- The source node's step in the `Flow::run` loop: a source node (no
inputs) is dirty iff its output slot is empty (spec §3); running it
produces a value (e.g. `Feed::run`) and `accept`s it on the output
slot; it has no input slots to clear. -/
def srcStep (source : Except String Data) (out : IOSlot) :
    Except String IOSlot :=
  match out.state with
  | .empty =>
    match source with
    | .error e => .error e
    | .ok v => out.accept v
  | _ => .ok out

/-- The `Flow::run` loop over the remaining nodes: slots are shared
pairwise, so the chain carries each node's computation together with
its output slot, and threads the previous node's output slot in as the
input.  Returns the updated intermediate slots (every slot that is some
node's input) and the terminal slot. -/
def runChain : IOSlot → List (Transform × IOSlot) →
    Except String (List IOSlot × IOSlot)
| a, [] => .ok ([], a)
| a, (f, b) :: rest =>
  match stepNode f a b with
  | .error e => .error e
  | .ok (a1, b1) =>
    match runChain b1 rest with
    | .error e => .error e
    | .ok (mids, term) => .ok (a1 :: mids, term)

/-- `Flow::run` (`src/flow/mod.rs:33-47`): walk the nodes in build
order, running the dirty ones and clearing consumed inputs, then `get`
the terminal output slot and return its value. -/
def flowRun (source : Except String Data) (slot0 : IOSlot)
    (chain : List (Transform × IOSlot)) :
    Except String ((List IOSlot × IOSlot) × Option Data) :=
  match srcStep source slot0 with
  | .error e => .error e
  | .ok a =>
    match runChain a chain with
    | .error e => .error e
    | .ok (mids, term) => .ok ((mids, (term.get).2), (term.get).1)

/-- A node step leaves its input slot non-dirty: either the node was
not dirty (so the input slot was not dirty to begin with), or it ran,
`get` moved the slot from dirty to clean, and the runner's clear pass
removes any remaining dirty input. -/
lemma stepNode_ok_left_not_dirty {f : Transform} {a b a1 b1 : IOSlot}
    (h : stepNode f a b = .ok (a1, b1)) : a1.isDirty = false := by
  unfold stepNode at h
  cases hd : a.isDirty with
  | false =>
    rw [hd] at h
    simp at h
    rw [← h.1]
    exact hd
  | true =>
    rw [hd] at h
    simp at h
    cases hr : runTransform f a b with
    | error e => rw [hr] at h; cases h
    | ok p =>
      obtain ⟨i1, o1⟩ := p
      rw [hr] at h
      simp at h
      obtain ⟨h1, _⟩ := h
      cases hi : i1.isDirty with
      | false => rw [hi] at h1; simp at h1; rw [← h1]; exact hi
      | true =>
        rw [hi] at h1
        simp at h1
        rw [← h1]
        simp [IOSlot.clear, IOSlot.isDirty]

/-- All intermediate slots returned by a successful chain run are
non-dirty. -/
lemma runChain_mids_not_dirty :
    ∀ (chain : List (Transform × IOSlot)) (a : IOSlot)
      (mids : List IOSlot) (term : IOSlot),
    runChain a chain = .ok (mids, term) →
    ∀ io ∈ mids, io.isDirty = false := by
  intro chain
  induction chain with
  | nil =>
    intro a mids term h io hio
    simp [runChain] at h
    rw [h.1] at hio
    cases hio
  | cons p rest ih =>
    obtain ⟨f, b⟩ := p
    intro a mids term h io hio
    rw [runChain] at h
    cases hs : stepNode f a b with
    | error e => rw [hs] at h; cases h
    | ok q =>
      obtain ⟨a1, b1⟩ := q
      rw [hs] at h
      dsimp only at h
      cases hc : runChain b1 rest with
      | error e => rw [hc] at h; cases h
      | ok r =>
        obtain ⟨mids1, term1⟩ := r
        rw [hc] at h
        simp at h
        rw [← h.1] at hio
        rw [List.mem_cons] at hio
        rcases hio with h1 | h2
        · rw [h1]; exact stepNode_ok_left_not_dirty hs
        · exact ih b1 mids1 term1 hc io h2

/-- Claim C4 (amended): after any successful `Flow::run`, no
intermediate slot is dirty.  (As literally stated — every intermediate
slot empty — the claim fails: a consumed slot ends in state clean, see
the counterexample.) -/
theorem C4_no_intermediate_slot_dirty_after_run
    (source : Except String Data) (slot0 : IOSlot)
    (chain : List (Transform × IOSlot)) (mids : List IOSlot)
    (term : IOSlot) (v? : Option Data)
    (h : flowRun source slot0 chain = .ok ((mids, term), v?)) :
    ∀ io ∈ mids, io.isDirty = false := by
  unfold flowRun at h
  cases hs : srcStep source slot0 with
  | error e => rw [hs] at h; cases h
  | ok a =>
    rw [hs] at h
    dsimp only at h
    cases hc : runChain a chain with
    | error e => rw [hc] at h; cases h
    | ok r =>
      obtain ⟨mids1, term1⟩ := r
      rw [hc] at h
      simp at h
      rw [← h.1.1]
      exact runChain_mids_not_dirty chain a mids1 term1 hc

/-- Witness for C4: a two-node flow runs successfully and its one
intermediate slot is not dirty. -/
theorem C4_witness :
    IOSlot.isDirty ⟨.feed, .clean (.feed ⟨[]⟩)⟩ = false :=
  C4_no_intermediate_slot_dirty_after_run (.ok (.feed ⟨[]⟩)) ⟨.feed, .empty⟩
    [(fun d => .ok d, ⟨.feed, .empty⟩)] [⟨.feed, .clean (.feed ⟨[]⟩)⟩]
    ⟨.feed, .clean (.feed ⟨[]⟩)⟩ (some (.feed ⟨[]⟩)) (by rfl)
    ⟨.feed, .clean (.feed ⟨[]⟩)⟩ (by simp)

/-- Counterexample to C4 as stated: the same successful two-node run
leaves its intermediate slot in state clean, not empty — the consumer's
`get` marks the slot clean, and the runner's clear pass skips it
because it is no longer dirty. -/
theorem C4_counterexample :
    flowRun (.ok (.feed ⟨[]⟩)) ⟨.feed, .empty⟩
        [(fun d => .ok d, ⟨.feed, .empty⟩)] =
      .ok (([⟨.feed, .clean (.feed ⟨[]⟩)⟩], ⟨.feed, .clean (.feed ⟨[]⟩)⟩),
        some (.feed ⟨[]⟩)) ∧
    SlotState.clean (.feed ⟨[]⟩) ≠ SlotState.empty :=
  ⟨rfl, by decide⟩

/-- `get_content` (`src/flow/retrieve.rs:34-56`): find the first link
with `rel == "alternate"` (none → entry unchanged); GET its href and
read the body; select the configured elements and concatenate their
inner HTML; set the entry content to that string with type `html`.
The HTTP client is the parameter `fetch` (href to body, or an error);
the HTML parse, selector match and inner-HTML concatenation — all in
the `scraper` crate — are the parameter `select`. -/
def get_content (fetch : String → Except String String)
    (select : String → String) (entry : Entry) : Except String Entry :=
  match entry.links.find? (fun l => l.rel == "alternate") with
  | none => .ok entry
  | some link =>
    match fetch link.href with
    | .error e => .error e
    | .ok body =>
      .ok { entry with
        content := some { value := some (select body), contentType := some "html" } }

/-- `min(atom.entries.len(), 6)` (`src/flow/retrieve.rs:82`): the
degree passed to `buffered`, bounding in-flight fetches. -/
def retrieveConcurrency (f : Feed) : Nat :=
  min f.entries.length 6

/-- `items.into_iter().collect::<anyhow::Result<_>>()`
(`src/flow/retrieve.rs:89`): all results, or the first error. -/
def sequenceResults : List (Except String Entry) → Except String (List Entry)
| [] => .ok []
| x :: rest =>
  match x with
  | .error e => .error e
  | .ok v =>
    match sequenceResults rest with
    | .error e => .error e
    | .ok vs => .ok (v :: vs)

/-- `Retrieve::run` (`src/flow/retrieve.rs:77-92`): take the feed off
the input slot (anything else → error), map `get_content` over the
entries through `buffered(min(len, 6))` — which yields results in
input order — collect, fail on any error, otherwise `accept` the feed
with the enriched entries on the output slot.  Returns the result
together with the input and output slots after the call. -/
def Retrieve.run (fetch : String → Except String String)
    (select : String → String) (input output : IOSlot) :
    Except String Unit × IOSlot × IOSlot :=
  match input.get with
  | (some (.feed atom), input1) =>
    match sequenceResults (atom.entries.map (get_content fetch select)) with
    | .error e => (.error e, input1, output)
    | .ok entries =>
      match output.accept (.feed { atom with entries := entries }) with
      | .error e => (.error e, input1, output)
      | .ok output1 => (.ok (), input1, output1)
  | (_, input1) => (.error "", input1, output)

/-- If every element maps to `ok`, the collected sequence is `ok`,
with the same length and the image of element `i` at index `i`. -/
lemma sequenceResults_map_ok {g : Entry → Except String Entry} :
    ∀ (l : List Entry), (∀ x ∈ l, ∃ y, g x = .ok y) →
    ∃ es, sequenceResults (l.map g) = .ok es ∧ es.length = l.length ∧
      ∀ i (h1 : i < l.length) (h2 : i < es.length),
        g (l.get ⟨i, h1⟩) = .ok (es.get ⟨i, h2⟩) := by
  intro l
  induction l with
  | nil => intro _; exact ⟨[], rfl, rfl, fun i h1 _ => absurd h1 (by simp)⟩
  | cons x rest ih =>
    intro hall
    obtain ⟨y, hy⟩ := hall x (by simp)
    obtain ⟨es, hes, hlen, hpt⟩ := ih (fun z hz => hall z (by simp [hz]))
    refine ⟨y :: es, ?_, by simp [hlen], ?_⟩
    · simp only [List.map_cons, sequenceResults, hy, hes]
    · intro i h1 h2
      cases i with
      | zero => simpa using hy
      | succ j =>
        have hj1 : j < rest.length := by simpa using h1
        have hj2 : j < es.length := by simpa using h2
        simpa using hpt j hj1 hj2

/-- If some element maps to an error, the collected sequence is an
error. -/
lemma sequenceResults_map_error {g : Entry → Except String Entry} :
    ∀ (l : List Entry) (x : Entry), x ∈ l → (∃ e, g x = .error e) →
    ∃ e, sequenceResults (l.map g) = .error e := by
  intro l
  induction l with
  | nil => intro x hx; cases hx
  | cons a rest ih =>
    intro x hx ⟨e, he⟩
    rw [List.mem_cons] at hx
    simp only [List.map_cons, sequenceResults]
    cases ha : g a with
    | error e2 => exact ⟨e2, rfl⟩
    | ok v =>
      rcases hx with h1 | h2
      · rw [h1] at he; rw [ha] at he; cases he
      · obtain ⟨e3, he3⟩ := ih x h2 ⟨e, he⟩
        rw [he3]
        exact ⟨e3, rfl⟩

/-- Claim C5: when every per-entry fetch succeeds, `Retrieve::run`
writes to its output slot a feed with exactly as many entries as the
input, in the same index order, entry `i` of the output being the
enrichment of entry `i` of the input. -/
theorem C5_retrieve_preserves_order_and_count
    (fetch : String → Except String String) (select : String → String)
    (f : Feed)
    (hall : ∀ x ∈ f.entries, ∃ y, get_content fetch select x = .ok y) :
    ∃ es,
      Retrieve.run fetch select ⟨.feed, .dirty (.feed f)⟩ ⟨.feed, .empty⟩ =
        (.ok (), ⟨.feed, .clean (.feed f)⟩, ⟨.feed, .dirty (.feed ⟨es⟩)⟩) ∧
      es.length = f.entries.length ∧
      ∀ i (h1 : i < f.entries.length) (h2 : i < es.length),
        get_content fetch select (f.entries.get ⟨i, h1⟩) = .ok (es.get ⟨i, h2⟩) := by
  obtain ⟨es, hes, hlen, hpt⟩ := sequenceResults_map_ok f.entries hall
  refine ⟨es, ?_, hlen, hpt⟩
  unfold Retrieve.run
  simp only [IOSlot.get]
  rw [hes]
  rfl

/-- Witness for C5: a one-entry feed whose alternate link fetches
successfully is enriched in place. -/
theorem C5_witness :
    ∃ es,
      Retrieve.run (fun _ => .ok "BODY") (fun s => s)
          ⟨.feed, .dirty (.feed ⟨[⟨"A", [⟨"alternate", "http:u"⟩], none⟩]⟩)⟩
          ⟨.feed, .empty⟩ =
        (.ok (), ⟨.feed, .clean (.feed ⟨[⟨"A", [⟨"alternate", "http:u"⟩], none⟩]⟩)⟩,
          ⟨.feed, .dirty (.feed ⟨es⟩)⟩) ∧
      es.length = 1 ∧
      ∀ i (h1 : i < 1) (h2 : i < es.length),
        get_content (fun _ => .ok "BODY") (fun s => s)
            (List.get [⟨"A", [⟨"alternate", "http:u"⟩], none⟩] ⟨i, h1⟩) =
          .ok (es.get ⟨i, h2⟩) :=
  C5_retrieve_preserves_order_and_count (fun _ => .ok "BODY") (fun s => s)
    ⟨[⟨"A", [⟨"alternate", "http:u"⟩], none⟩]⟩
    (by intro x hx; simp at hx; subst hx; exact ⟨_, rfl⟩)

/-- Claim C6: if any single per-entry fetch fails, `Retrieve::run`
returns an error and the output slot is exactly what it was before the
run — partial results are discarded. -/
theorem C6_retrieve_fail_fast_no_partial_write
    (fetch : String → Except String String) (select : String → String)
    (f : Feed) (output : IOSlot) (x : Entry) (hx : x ∈ f.entries)
    (hfail : ∃ e, get_content fetch select x = .error e) :
    ∃ e, Retrieve.run fetch select ⟨.feed, .dirty (.feed f)⟩ output =
      (.error e, ⟨.feed, .clean (.feed f)⟩, output) := by
  obtain ⟨e, he⟩ := sequenceResults_map_error f.entries x hx hfail
  refine ⟨e, ?_⟩
  unfold Retrieve.run
  simp only [IOSlot.get]
  rw [he]

/-- Witness for C6: a feed whose second entry's fetch fails leaves the
(empty) output slot untouched and errors. -/
theorem C6_witness :
    ∃ e,
      Retrieve.run (fun _ => .error "net down") (fun s => s)
          ⟨.feed, .dirty (.feed ⟨[⟨"A", [], none⟩,
            ⟨"B", [⟨"alternate", "http:u"⟩], none⟩]⟩)⟩ ⟨.feed, .empty⟩ =
        (.error e, ⟨.feed, .clean (.feed ⟨[⟨"A", [], none⟩,
          ⟨"B", [⟨"alternate", "http:u"⟩], none⟩]⟩)⟩, ⟨.feed, .empty⟩) :=
  C6_retrieve_fail_fast_no_partial_write (fun _ => .error "net down")
    (fun s => s) ⟨[⟨"A", [], none⟩, ⟨"B", [⟨"alternate", "http:u"⟩], none⟩]⟩
    ⟨.feed, .empty⟩ ⟨"B", [⟨"alternate", "http:u"⟩], none⟩ (by simp)
    ⟨"net down", rfl⟩

/-- Modelled from the spec: the cache node's state — `{ last_value,
inserted_at }`, both optional, present together once a value has been
stored.  The `cache.rs` implementing it is declared by the tree
(`flow/node.rs` imports `super::cache::Cache`) but its source is not
checked in. -/
structure CacheState (α : Type) where
  cached : Option (α × Nat)

/-- Modelled from the spec: the cache node's `run()` with TTL `ttl` at
monotonic time `now`.  If `last_value` is present and `now −
inserted_at < ttl`, emit `last_value` on the output slot without
invoking the wrapped child; otherwise invoke the child, store its value
with `inserted_at = now`, and emit it.  Returns the new state, the
emitted value, and whether the child was invoked. -/
def Cache.run {α : Type} (ttl now : Nat) (child : Except String α)
    (st : CacheState α) : Except String (CacheState α × α × Bool) :=
  match st.cached with
  | some (v, t) =>
    if now - t < ttl then .ok (st, v, false)
    else
      match child with
      | .error e => .error e
      | .ok w => .ok (⟨some (w, now)⟩, w, true)
  | none =>
    match child with
    | .error e => .error e
    | .ok w => .ok (⟨some (w, now)⟩, w, true)

/-- Claim C8: a cache whose stored value was inserted at `T` does not
invoke the wrapped child at any time strictly before `T + ttl` and
emits the stored value unchanged; hence a miss at `T` followed by a
second run within the TTL invokes the child exactly once, both runs
observing the same value. -/
theorem C8_cache_fresh_hit_and_single_child_invocation {α : Type}
    (ttl T now : Nat) (v : α) (child child2 : Except String α)
    (hT : T ≤ now) (hfresh : now < T + ttl) :
    Cache.run ttl now child ⟨some (v, T)⟩ = .ok (⟨some (v, T)⟩, v, false) ∧
    (∀ w, child = .ok w →
      Cache.run ttl T child ⟨none⟩ = .ok (⟨some (w, T)⟩, w, true) ∧
      Cache.run ttl now child2 ⟨some (w, T)⟩ = .ok (⟨some (w, T)⟩, w, false)) := by
  have hlt : now - T < ttl := by omega
  constructor
  · unfold Cache.run
    simp [hlt]
  · intro w hw
    constructor
    · unfold Cache.run
      rw [hw]
    · unfold Cache.run
      simp [hlt]

/-- Witness for C8: with TTL 10, a miss at time 0 and a hit at time 5
invoke the child once and both emit its value. -/
theorem C8_witness :
    Cache.run 10 5 (Except.error "") (⟨some (3, 0)⟩ : CacheState Nat) =
      .ok (⟨some (3, 0)⟩, 3, false) ∧
    Cache.run 10 0 (Except.ok 3) (⟨none⟩ : CacheState Nat) =
      .ok (⟨some (3, 0)⟩, 3, true) ∧
    Cache.run 10 5 (Except.error "") (⟨some (3, 0)⟩ : CacheState Nat) =
      .ok (⟨some (3, 0)⟩, 3, false) :=
  have h := C8_cache_fresh_hit_and_single_child_invocation 10 0 5 3
    (Except.ok 3) (Except.error "") (by decide) (by decide)
  ⟨h.1, (h.2 3 rfl).1, (h.2 3 rfl).2⟩

/-- The persistent WebSub subscription row
(`websub(uuid, flow, topic, hub, secret, subscribed, lease_end)`), as
read and updated by the `verify` handler. -/
structure WebSubRow where
  flow : String
  topic : String
  hub : String
  secret : String
  subscribed : Bool
  lease_end : Int
deriving DecidableEq

/-- The parsed `GET /websub/:uuid` query
(`src/route/websub.rs:101-118`): tagged by `hub.mode`. -/
inductive Verification
| subscribe (topic challenge : String) (lease_seconds : Nat)
| unsubscribe (topic challenge : String)

/-- `verify` (`src/route/websub.rs:120-176`): look up the row by UUID
(absent → 404).  On `subscribe`, compute `lease_end = now +
lease_seconds` and UPDATE the row — unconditionally, before the
`subscribed && topic` check — then 200 with the challenge when
`subscribed` is set and the topic matches, else 400.  On
`unsubscribe`, when `subscribed` is unset and the topic matches, DELETE
the row and 200 with the challenge, else 400.  Returns the HTTP
response (status, body) and the stored row afterwards (`none` when
absent or deleted). -/
def websubVerify (now : Int) (row? : Option WebSubRow)
    (v : Verification) : (Nat × String) × Option WebSubRow :=
  match row? with
  | none => ((404, "Not found"), none)
  | some row =>
    match v with
    | .subscribe topic challenge lease_seconds =>
      let lease_end : Int := now + lease_seconds
      let row1 := { row with lease_end := lease_end }
      if row.subscribed && topic == row.topic then
        ((200, challenge), some row1)
      else
        ((400, "Bad request"), some row1)
    | .unsubscribe topic challenge =>
      if !row.subscribed && topic == row.topic then
        ((200, challenge), none)
      else
        ((400, "Bad request"), some row)

/-- Claim C1 fails on the code: a subscribe verification for a stored
but unsubscribed record (or mismatched topic) is answered 400, yet the
handler has already executed `UPDATE websub SET lease_end = now +
lease_seconds` — the stored record changes.  Here, an unsubscribed
record with `lease_end = 0` receives `hub.lease_seconds=600` at
`now = 100`: the response is 400 but `lease_end` becomes 700.  The same
run on a subscribed record with mismatched topic also rewrites
`lease_end`. -/
theorem C1_code_bug_lease_updated_on_rejected_subscribe :
    (websubVerify 100
        (some ⟨"f", "T", "h", "s", false, 0⟩)
        (.subscribe "T" "C" 600) =
      ((400, "Bad request"), some ⟨"f", "T", "h", "s", false, 700⟩)) ∧
    (websubVerify 100
        (some ⟨"f", "T", "h", "s", true, 0⟩)
        (.subscribe "OTHER" "C" 600) =
      ((400, "Bad request"), some ⟨"f", "T", "h", "s", true, 700⟩)) ∧
    (700 : Int) ≠ 0 := by
  refine ⟨rfl, rfl, by decide⟩

/-- `internal_error` (referenced from `super` in
`src/route/api/mod.rs` and `src/route/websub.rs`; its defining
`route/mod.rs` is not in the checked-in tree).  Modelled from the spec:
store I/O failures surface as 500 with the error's message. -/
def internal_error (msg : String) : Nat × String :=
  (500, msg)

/-- `get_flow` (`src/route/api/mod.rs:41-52`): `fetch_one` the flows
row by name and answer 200 with the row's serialized flow content; when
no row matches, `fetch_one` returns a `RowNotFound` error, which
`map_err(internal_error)` turns into a 500 response.  The flows table
is the association list name → serialized content (the row content is
the column the handler reads with `row.get(1)`, the same column
`get_flows` parses as the flow JSON). -/
def get_flow (flows : List (String × String)) (name : String) :
    Except (Nat × String) String :=
  match flows.find? (fun r => r.1 == name) with
  | some r => .ok r.2
  | none => .error (internal_error "no rows returned by a query that expected to return at least one row")

/-- Claim C9 (amended): `GET /api/flow/:name` answers 200 with the
stored serialized flow JSON when the name exists, and 500 (the
`RowNotFound` error mapped by `internal_error`), not 404, when it does
not. -/
theorem C9_get_flow_found_200_absent_500
    (flows : List (String × String)) (name : String) :
    (∀ r, flows.find? (fun p => p.1 == name) = some r →
      get_flow flows name = .ok r.2) ∧
    (flows.find? (fun p => p.1 == name) = none →
      ∃ m, get_flow flows name = .error (500, m)) := by
  constructor
  · intro r hr
    unfold get_flow
    rw [hr]
  · intro hnone
    unfold get_flow
    rw [hnone]
    exact ⟨_, rfl⟩

/-- Witness for C9: a store holding `a` answers 200 with its content
for `a` and 500 for the absent `b`. -/
theorem C9_witness :
    get_flow [("a", "JSON")] "a" = .ok "JSON" ∧
    ∃ m, get_flow [("a", "JSON")] "b" = .error (500, m) :=
  ⟨(C9_get_flow_found_200_absent_500 [("a", "JSON")] "a").1 ("a", "JSON") rfl,
    (C9_get_flow_found_200_absent_500 [("a", "JSON")] "b").2 rfl⟩

/-- Counterexample to C9 as stated: on an absent name the handler's
response status is 500, not the claimed 404. -/
theorem C9_counterexample :
    get_flow [] "missing" =
      .error (500, "no rows returned by a query that expected to return at least one row") ∧
    (500 : Nat) ≠ 404 :=
  ⟨rfl, by decide⟩

end RssPipe
